import Mathlib

/-!
Shallow embedding of the qBittorrent v2 web API client
(qbittorrentv2/client.py).  Python values, dictionaries and the request
dispatch helper are modelled as executable Lean functions; the HTTP layer
is represented by passing in the response a dispatched request would
receive, and every request actually handed to the session is recorded in
a trace list, so that raising before dispatch is visible as an empty
trace.
-/

namespace QBit

/-- Model of the Python values that appear as dictionary entries in the
client: strings, integers, booleans, None, and the tuple used for the
dummy multipart file entry. -/
inductive PyVal where
  | str (s : String)
  | int (n : Int)
  | bool (b : Bool)
  | none
  | pair (a b : PyVal)
deriving DecidableEq

/-- Python dictionaries with string keys, as insertion ordered association
lists (the semantics of dict in Python 3.7 and later). -/
abbrev PyDict := List (String × PyVal)

/-- Python truthiness for the modelled values. -/
def PyVal.truthy : PyVal → Bool
  | .str s => !(s == "")
  | .int n => !(n == 0)
  | .bool b => b
  | .none => false
  | .pair _ _ => true

/-- isinstance(v, int) for the modelled values: Python booleans are
instances of int. -/
def PyVal.isinstance_int : PyVal → Bool
  | .int _ => true
  | .bool _ => true
  | _ => false

/-- Lookup in a Python dict (dict.get, first matching key). -/
def dictGet (d : PyDict) (k : String) : Option PyVal :=
  (d.find? (fun p => p.1 == k)).map (fun p => p.2)

/-- Membership of a key in a dict. -/
def hasKey (d : PyDict) (k : String) : Bool :=
  d.any (fun p => p.1 == k)

/-- Assignment d[k] = v with Python semantics: an existing key keeps its
position and receives the new value, a new key is appended at the end. -/
def dictSet (d : PyDict) (k : String) (v : PyVal) : PyDict :=
  if hasKey d k then d.map (fun p => if p.1 == k then (k, v) else p)
  else d ++ [(k, v)]

/-- The keyword arguments other than data that wrapper methods forward to
the requests library: query parameters, headers and multipart files. -/
structure Kwargs where
  params : Option PyDict
  headers : Option PyDict
  files : Option PyDict
deriving DecidableEq

/-- Keyword arguments with nothing set. -/
def noKw : Kwargs := ⟨Option.none, Option.none, Option.none⟩

/-- An HTTP request actually handed to the requests session.  A GET
carries no body, because session.get is called without the data
argument. -/
inductive Dispatched where
  | get (url : String) (kw : Kwargs)
  | post (url : String) (data : Option PyDict) (kw : Kwargs)
deriving DecidableEq

/-- URL of a dispatched request. -/
def Dispatched.url : Dispatched → String
  | .get u _ => u
  | .post u _ _ => u

/-- The parts of an HTTP response that the client inspects. -/
structure HttpResponse where
  statusCode : Nat
  text : String
deriving DecidableEq

/-- The exceptions the client can raise. -/
inductive PyErr where
  | loginRequired
  | httpError (status : Nat)
  | valueError
  | typeError
  | runtimeError
deriving DecidableEq

/-- One level JSON values, enough to model decoded response bodies. -/
inductive JsonVal where
  | obj (fields : List (String × PyVal))
  | arr (elems : List PyVal)
  | prim (v : PyVal)
deriving DecidableEq

/-- What _request returns: a decoded JSON value or the raw response
text. -/
inductive RespVal where
  | json (v : JsonVal)
  | text (s : String)
deriving DecidableEq

/-- The attributes of Client that the request helpers read: the base url
and the _is_authenticated flag. -/
structure ClientState where
  url : String
  isAuthenticated : Bool
deriving DecidableEq

/-- Body decoding at the end of _request: an empty body is decoded by
applying json.loads to the two character object literal, otherwise
json.loads is tried on the body and on ValueError the raw text is
returned.  The stdlib parser json.loads is a parameter of the model. -/
def decodeBody (jsonLoads : String → Option JsonVal) (text : String) :
    Except PyErr RespVal :=
  if text.length == 0 then
    match jsonLoads "\x7b\x7d" with
    | Option.some v => Except.ok (RespVal.json v)
    | Option.none => Except.error PyErr.valueError
  else
    match jsonLoads text with
    | Option.some v => Except.ok (RespVal.json v)
    | Option.none => Except.ok (RespVal.text text)

namespace Client

/-- Client._request: build the final url, raise LoginRequired when the
session is not authenticated, dispatch by method string, raise for an
error status, then decode the body.  The first component records the
requests actually dispatched. -/
def _request (jsonLoads : String → Option JsonVal) (st : ClientState)
    (endpoint method : String) (data : Option PyDict) (kw : Kwargs)
    (resp : HttpResponse) : List Dispatched × Except PyErr RespVal :=
  let finalUrl := st.url ++ endpoint
  if st.isAuthenticated = false then
    ([], Except.error PyErr.loginRequired)
  else
    let d := if method == "get" then Dispatched.get finalUrl kw
             else Dispatched.post finalUrl data kw
    if 400 ≤ resp.statusCode ∧ resp.statusCode < 600 then
      ([d], Except.error (PyErr.httpError resp.statusCode))
    else
      ([d], decodeBody jsonLoads resp.text)

/-- Client._get: _request with the method string get.  A data keyword
argument passed by a caller lands in the data parameter of _request. -/
def _get (jsonLoads : String → Option JsonVal) (st : ClientState)
    (endpoint : String) (data : Option PyDict) (kw : Kwargs)
    (resp : HttpResponse) : List Dispatched × Except PyErr RespVal :=
  _request jsonLoads st endpoint "get" data kw resp

/-- Client._post: _request with the method string post. -/
def _post (jsonLoads : String → Option JsonVal) (st : ClientState)
    (endpoint : String) (data : PyDict) (kw : Kwargs)
    (resp : HttpResponse) : List Dispatched × Except PyErr RespVal :=
  _request jsonLoads st endpoint "post" (Option.some data) kw resp

end Client

/-- A request a public wrapper method builds before handing it to the
request helper: the endpoint, the method string, the optional data
argument and the remaining keyword arguments. -/
structure Call where
  endpoint : String
  method : String
  data : Option PyDict
  kw : Kwargs
deriving DecidableEq

/-- Run a wrapper result through _request.  A wrapper that raised before
building its call dispatches nothing and propagates its exception. -/
def runCall (jsonLoads : String → Option JsonVal) (st : ClientState)
    (c : Except PyErr Call) (resp : HttpResponse) :
    List Dispatched × Except PyErr RespVal :=
  match c with
  | Except.error e => ([], Except.error e)
  | Except.ok call =>
      Client._request jsonLoads st call.endpoint call.method call.data
        call.kw resp

/-- str.endswith, modelled on the character lists of the strings. -/
def pyEndswith (s suffix : String) : Bool :=
  suffix.data.isSuffixOf s.data

/-- str.join: the empty string on an empty list, otherwise the first
element followed by separator and element for each remaining element. -/
def pyJoin (sep : String) : List String → String
  | [] => ""
  | h :: t => t.foldl (fun acc x => acc ++ sep ++ x) h

/-- The argument of _process_infohash_list: a list of infohashes or a
single infohash string. -/
inductive InfohashInput where
  | list (hs : List String)
  | single (h : String)

/-- A link argument of download_from_link: a single url or a list. -/
inductive PyLink where
  | one (s : String)
  | many (ls : List String)

namespace Client

/-- Client.__init__: append the api suffix when the given url does not
already end with it, then probe app/preferences: 200 authenticates, 404
raises RuntimeError (after the url and the flag are already set), any
other status leaves the client unauthenticated.  The state the object
holds is returned together with the exception, if any. -/
def initUrl (url : String) : String :=
  if pyEndswith url "/api/v2/" then url else url ++ "/api/v2/"

/-- Client.__init__, continued: the stored state and the exception. -/
def init (url : String) (checkPrefs : HttpResponse) :
    ClientState × Option PyErr :=
  if checkPrefs.statusCode == 200 then (⟨initUrl url, true⟩, Option.none)
  else if checkPrefs.statusCode == 404 then
    (⟨initUrl url, false⟩, Option.some PyErr.runtimeError)
  else (⟨initUrl url, false⟩, Option.none)

/-- Client.login: posts to auth/login on a fresh session (bypassing
_request), sets the flag on the exact response text Ok. and otherwise
returns the response text, leaving the state as it was. -/
def login (st : ClientState) (resp : HttpResponse) :
    ClientState × Option String :=
  if resp.text == "Ok." then (⟨st.url, true⟩, Option.none)
  else (st, Option.some resp.text)

/-- Client.logout: performs _get on auth/logout; when that raises, the
exception propagates and the flag is untouched, otherwise the flag is
cleared. -/
def logout (jsonLoads : String → Option JsonVal) (st : ClientState)
    (resp : HttpResponse) :
    ClientState × (List Dispatched × Except PyErr RespVal) :=
  let r := Client._get jsonLoads st "auth/logout" Option.none noKw resp
  match r.2 with
  | Except.error _ => (st, r)
  | Except.ok _ => (⟨st.url, false⟩, r)

/-- Client.torrents: rename the keyword status to filter, keep every
other keyword, and GET torrents/info with the result as params. -/
def torrents (filters : PyDict) : Call :=
  let params := filters.foldl
    (fun acc p => dictSet acc (if p.1 == "status" then "filter" else p.1) p.2)
    []
  ⟨"torrents/info", "get", Option.none, ⟨Option.some params, Option.none, Option.none⟩⟩

/-- The urls value download_from_link sends: a list of links is joined
with newlines. -/
def linkUrls : PyLink → String
  | PyLink.one s => s
  | PyLink.many ls => pyJoin "\n" ls

/-- The dummy multipart file entry download_from_link always attaches. -/
def dummyFile : PyDict := [("_dummy", PyVal.pair PyVal.none (PyVal.str "_dummy"))]

/-- Client.download_from_link: copy the keywords, copy save_path to
savepath when save_path is truthy and savepath is not, set urls from the
link argument, and POST torrents/add with the dummy multipart file. -/
def download_from_link (link : PyLink) (kwargs : PyDict) : Call :=
  let options := kwargs
  let options :=
    if PyVal.truthy ((dictGet options "save_path").getD PyVal.none)
        && !(PyVal.truthy ((dictGet options "savepath").getD PyVal.none)) then
      dictSet options "savepath" ((dictGet options "save_path").getD PyVal.none)
    else options
  let options := dictSet options "urls" (PyVal.str (linkUrls link))
  ⟨"torrents/add", "post", Option.some options,
    ⟨Option.none, Option.none, Option.some dummyFile⟩⟩

/-- Client._process_infohash_list: a list becomes the lowercased hashes
joined by the pipe character, a single string is lowercased. -/
def _process_infohash_list : InfohashInput → PyDict
  | InfohashInput.list hs =>
      [("hashes", PyVal.str (pyJoin "|" (hs.map String.toLower)))]
  | InfohashInput.single h => [("hashes", PyVal.str h.toLower)]

/-- Client.set_file_priority: reject a priority outside 0, 1, 2, 7 with
ValueError, then a non int file id with TypeError, otherwise POST
torrents/filePrio. -/
def set_file_priority (infohash : String) (file_id : PyVal)
    (priority : Int) : Except PyErr Call :=
  if priority ∉ ([0, 1, 2, 7] : List Int) then
    Except.error PyErr.valueError
  else if !file_id.isinstance_int then
    Except.error PyErr.typeError
  else
    Except.ok ⟨"torrents/filePrio", "post",
      Option.some [("hash", PyVal.str infohash.toLower), ("id", file_id),
        ("priority", PyVal.int priority)], noKw⟩

/-- Client.add_feed: POST rss/addFeed with url and path. -/
def add_feed (url path : String) : Call :=
  ⟨"rss/addFeed", "post",
    Option.some [("url", PyVal.str url), ("path", PyVal.str path)], noKw⟩

/-- Client.remove_item: POSTs with the path of the item to remove; the
endpoint string in the source is rss/addFeed. -/
def remove_item (path : String) : Call :=
  ⟨"rss/addFeed", "post", Option.some [("path", PyVal.str path)], noKw⟩

/-- Client.get_item: calls _get on rss/items passing withData through the
data keyword, which _request swallows for GET. -/
def get_item (withData : Bool) : Call :=
  ⟨"rss/items", "get", Option.some [("withData", PyVal.bool withData)], noKw⟩

end Client

/-- A concrete stand in for json.loads, used to instantiate witnesses:
it recognises the empty object literal and one sample document. -/
def jsonLoadsExample (s : String) : Option JsonVal :=
  if s == "\x7b\x7d" then Option.some (JsonVal.obj [])
  else if s == "[1]" then Option.some (JsonVal.arr [PyVal.int 1])
  else Option.none

/-- C1: when the client is not authenticated, _request raises
LoginRequired and dispatches no HTTP request, for every endpoint, method,
data and keyword arguments; _get and _post go through _request and do
the same. -/
theorem c1_unauthenticated_raises_login_required
    (jsonLoads : String → Option JsonVal) (st : ClientState)
    (endpoint method : String) (data : Option PyDict) (dt : PyDict)
    (kw : Kwargs) (resp : HttpResponse)
    (h : st.isAuthenticated = false) :
    Client._request jsonLoads st endpoint method data kw resp
      = ([], Except.error PyErr.loginRequired)
    ∧ Client._get jsonLoads st endpoint data kw resp
      = ([], Except.error PyErr.loginRequired)
    ∧ Client._post jsonLoads st endpoint dt kw resp
      = ([], Except.error PyErr.loginRequired) := by
  unfold Client._get Client._post Client._request
  simp [h]

/-- Witness for C1 at a concrete unauthenticated state. -/
theorem c1_unauthenticated_raises_login_required_witness :
    Client._request jsonLoadsExample ⟨"http://h/api/v2/", false⟩
        "app/version" "get" Option.none noKw ⟨200, ""⟩
      = ([], Except.error PyErr.loginRequired) :=
  (c1_unauthenticated_raises_login_required jsonLoadsExample
    ⟨"http://h/api/v2/", false⟩ "app/version" "get" Option.none [] noKw
    ⟨200, ""⟩ rfl).1

/-- C3: on an authenticated call whose response has an error status (4xx
or 5xx), _request raises the HTTP error: exactly the one request was
dispatched (no retry) and no decoded value is returned. -/
theorem c3_error_status_raises
    (jsonLoads : String → Option JsonVal) (st : ClientState)
    (endpoint method : String) (data : Option PyDict) (kw : Kwargs)
    (resp : HttpResponse)
    (hauth : st.isAuthenticated = true)
    (hlo : 400 ≤ resp.statusCode) (hhi : resp.statusCode < 600) :
    Client._request jsonLoads st endpoint method data kw resp
      = ([if method == "get" then Dispatched.get (st.url ++ endpoint) kw
          else Dispatched.post (st.url ++ endpoint) data kw],
         Except.error (PyErr.httpError resp.statusCode)) := by
  unfold Client._request
  simp [hauth, hlo, hhi]

/-- Witness for C3 at a concrete 404 response. -/
theorem c3_error_status_raises_witness :
    Client._request jsonLoadsExample ⟨"http://h/api/v2/", true⟩
        "app/version" "get" Option.none noKw ⟨404, "Not Found"⟩
      = ([Dispatched.get "http://h/api/v2/app/version" noKw],
         Except.error (PyErr.httpError 404)) :=
  c3_error_status_raises jsonLoadsExample ⟨"http://h/api/v2/", true⟩
    "app/version" "get" Option.none noKw ⟨404, "Not Found"⟩ rfl
    (by decide) (by decide)

/-- C7: _request routes on the method string: the string get dispatches
through session.get, any other method string dispatches through
session.post carrying the data argument; _get always passes the string
get and _post always passes the string post. -/
theorem c7_method_routing
    (jsonLoads : String → Option JsonVal) (st : ClientState)
    (endpoint method : String) (data : Option PyDict) (dt : PyDict)
    (kw : Kwargs) (resp : HttpResponse)
    (hauth : st.isAuthenticated = true) :
    (method = "get" →
      (Client._request jsonLoads st endpoint method data kw resp).1
        = [Dispatched.get (st.url ++ endpoint) kw])
    ∧ (method ≠ "get" →
      (Client._request jsonLoads st endpoint method data kw resp).1
        = [Dispatched.post (st.url ++ endpoint) data kw])
    ∧ Client._get jsonLoads st endpoint data kw resp
        = Client._request jsonLoads st endpoint "get" data kw resp
    ∧ Client._post jsonLoads st endpoint dt kw resp
        = Client._request jsonLoads st endpoint "post" (Option.some dt) kw resp := by
  refine ⟨fun hm => ?_, fun hm => ?_, rfl, rfl⟩ <;>
    unfold Client._request <;>
    simp [hauth, hm] <;>
    split <;> simp

/-- Witness for C7 with a post method string. -/
theorem c7_method_routing_witness :
    (Client._request jsonLoadsExample ⟨"http://h/api/v2/", true⟩
        "torrents/pause" "post" (Option.some [("hashes", PyVal.str "all")])
        noKw ⟨200, ""⟩).1
      = [Dispatched.post "http://h/api/v2/torrents/pause"
          (Option.some [("hashes", PyVal.str "all")]) noKw] :=
  ((c7_method_routing jsonLoadsExample ⟨"http://h/api/v2/", true⟩
      "torrents/pause" "post" (Option.some [("hashes", PyVal.str "all")])
      [] noKw ⟨200, ""⟩ rfl).2.1) (by decide)

/-- A string has length zero exactly when it is empty; used to read the
length test in _request as emptiness of the body. -/
theorem string_length_eq_zero (s : String) : s.length = 0 ↔ s = "" := by
  obtain ⟨d⟩ := s
  simp [String.length, List.length_eq_zero, String.ext_iff]

/-- C2: on an authenticated call whose response status passes
raise_for_status, the decoded result is: the empty dictionary for an
empty body (json.loads applied to the empty object literal), the parsed
value when json.loads succeeds, and the raw text when json.loads raises
ValueError. -/
theorem c2_body_decoding
    (jsonLoads : String → Option JsonVal) (st : ClientState)
    (endpoint method : String) (data : Option PyDict) (kw : Kwargs)
    (resp : HttpResponse)
    (hauth : st.isAuthenticated = true)
    (hok : ¬(400 ≤ resp.statusCode ∧ resp.statusCode < 600))
    (hempty : jsonLoads "\x7b\x7d" = Option.some (JsonVal.obj [])) :
    (resp.text = "" →
      (Client._request jsonLoads st endpoint method data kw resp).2
        = Except.ok (RespVal.json (JsonVal.obj [])))
    ∧ (∀ v, jsonLoads resp.text = Option.some v → resp.text ≠ "" →
      (Client._request jsonLoads st endpoint method data kw resp).2
        = Except.ok (RespVal.json v))
    ∧ (jsonLoads resp.text = Option.none → resp.text ≠ "" →
      (Client._request jsonLoads st endpoint method data kw resp).2
        = Except.ok (RespVal.text resp.text)) := by
  unfold Client._request decodeBody
  refine ⟨fun ht => ?_, fun v hv ht => ?_, fun hv ht => ?_⟩
  · simp [hauth, hok, ht, hempty]
  · simp [hauth, hok, hv, string_length_eq_zero, ht]
  · simp [hauth, hok, hv, string_length_eq_zero, ht]

/-- Witness for C2: an empty body decodes to the empty dictionary. -/
theorem c2_body_decoding_witness :
    (Client._request jsonLoadsExample ⟨"http://h/api/v2/", true⟩
        "app/shutdown" "get" Option.none noKw ⟨200, ""⟩).2
      = Except.ok (RespVal.json (JsonVal.obj [])) :=
  (c2_body_decoding jsonLoadsExample ⟨"http://h/api/v2/", true⟩
      "app/shutdown" "get" Option.none noKw ⟨200, ""⟩ rfl (by decide)
      (by decide)).1 rfl

/-- A dict without the key k looks it up to nothing. -/
theorem dictGet_eq_none (d : PyDict) (k : String) (h : hasKey d k = false) :
    dictGet d k = Option.none := by
  unfold hasKey at h
  rw [List.any_eq_false] at h
  unfold dictGet
  rw [List.find?_eq_none.mpr h]
  rfl

/-- Updating an existing key in place makes lookup return the new
value. -/
theorem dictGet_map_set_same (d : PyDict) (k : String) (v : PyVal)
    (h : hasKey d k = true) :
    dictGet (d.map (fun p => if p.1 == k then (k, v) else p)) k
      = Option.some v := by
  induction d with
  | nil => simp [hasKey] at h
  | cons p t ih =>
      rw [List.map_cons]
      by_cases hp : p.1 = k
      · rw [show (if p.1 == k then (k, v) else p) = (k, v) by simp [hp]]
        unfold dictGet
        rw [List.find?_cons_of_pos _ (by simp)]
        rfl
      · rw [show (if p.1 == k then (k, v) else p) = p by simp [hp]]
        have ht : hasKey t k = true := by
          unfold hasKey at h ⊢
          rw [List.any_cons] at h
          simpa [hp] using h
        have hi := ih ht
        unfold dictGet at hi ⊢
        rw [List.find?_cons_of_neg _ (by simp [hp])]
        exact hi

/-- Updating one key leaves lookups of other keys unchanged. -/
theorem dictGet_map_set_other (d : PyDict) (k k' : String) (v : PyVal)
    (h : k' ≠ k) :
    dictGet (d.map (fun p => if p.1 == k then (k, v) else p)) k'
      = dictGet d k' := by
  induction d with
  | nil => rfl
  | cons p t ih =>
      rw [List.map_cons]
      unfold dictGet at ih ⊢
      by_cases hp : p.1 = k
      · rw [show (if p.1 == k then (k, v) else p) = (k, v) by simp [hp]]
        rw [List.find?_cons_of_neg _ (by simp; exact fun he => h he.symm)]
        rw [List.find?_cons_of_neg _ (by simp [hp]; exact fun he => h he.symm)]
        exact ih
      · by_cases hp' : p.1 = k'
        · rw [show (if p.1 == k then (k, v) else p) = p by simp [hp]]
          rw [List.find?_cons_of_pos _ (by simp [hp'])]
          rw [List.find?_cons_of_pos _ (by simp [hp'])]
        · rw [show (if p.1 == k then (k, v) else p) = p by simp [hp]]
          rw [List.find?_cons_of_neg _ (by simp [hp'])]
          rw [List.find?_cons_of_neg _ (by simp [hp'])]
          exact ih

/-- Lookup after assignment: the assigned key reads the new value, every
other key reads as before. -/
theorem dictGet_dictSet (d : PyDict) (k k' : String) (v : PyVal) :
    dictGet (dictSet d k v) k'
      = if k' = k then Option.some v else dictGet d k' := by
  unfold dictSet
  by_cases hk : hasKey d k
  · rw [if_pos hk]
    by_cases h : k' = k
    · rw [if_pos h, h]; exact dictGet_map_set_same d k v hk
    · rw [if_neg h]; exact dictGet_map_set_other d k k' v h
  · rw [if_neg hk]
    have hfn : List.find? (fun p => p.1 == k) d = Option.none := by
      unfold hasKey at hk
      rw [Bool.not_eq_true, List.any_eq_false] at hk
      exact List.find?_eq_none.mpr hk
    by_cases h : k' = k
    · subst h
      rw [if_pos rfl]
      unfold dictGet
      rw [List.find?_append, hfn]
      simp
    · rw [if_neg h]
      unfold dictGet
      rw [List.find?_append]
      have : List.find? (fun p => p.1 == k') [(k, v)] = Option.none := by
        rw [List.find?_cons_of_neg _ (by simp; exact Ne.symm h)]
        rfl
      rw [this]
      simp

/-- Key membership distributes over append. -/
theorem hasKey_append (d e : PyDict) (k : String) :
    hasKey (d ++ e) k = (hasKey d k || hasKey e k) := by
  unfold hasKey
  exact List.any_append

/-- Assigning a fresh key appends the binding. -/
theorem dictSet_fresh (d : PyDict) (k : String) (v : PyVal)
    (h : hasKey d k = false) :
    dictSet d k v = d ++ [(k, v)] := by
  unfold dictSet
  simp [h]

/-- A pair in the list witnesses its key. -/
theorem hasKey_of_mem (t : PyDict) (q : String × PyVal) (k : String)
    (hq : q ∈ t) (hk : q.1 = k) : hasKey t k = true := by
  unfold hasKey
  rw [List.any_eq_true]
  exact ⟨q, hq, by simp [hk]⟩

/-- The head key is present. -/
theorem hasKey_cons_head (p : String × PyVal) (t : PyDict) (k : String)
    (hp : p.1 = k) : hasKey (p :: t) k = true := by
  unfold hasKey
  rw [List.any_cons]
  simp [hp]

/-- A key of the tail is a key of the whole dict. -/
theorem hasKey_cons_tail (p : String × PyVal) (t : PyDict) (k : String)
    (h : hasKey t k = true) : hasKey (p :: t) k = true := by
  unfold hasKey at h ⊢
  rw [List.any_cons, h]
  simp

/-- Folding key renaming assignments over a dict with distinct renamed
keys, starting from an accumulator they are all fresh for, appends the
renamed pairs in order. -/
theorem foldl_dictSet_map (f : String → String) :
    ∀ (l : PyDict) (acc : PyDict),
    (l.map (fun p => f p.1)).Nodup →
    (∀ p ∈ l, hasKey acc (f p.1) = false) →
    l.foldl (fun a p => dictSet a (f p.1) p.2) acc
      = acc ++ l.map (fun p => (f p.1, p.2)) := by
  intro l
  induction l with
  | nil => intro acc _ _; simp
  | cons p t ih =>
      intro acc hnd hfresh
      rw [List.map_cons, List.nodup_cons] at hnd
      rw [List.foldl_cons, dictSet_fresh _ _ _ (hfresh p (by simp))]
      have hfr : ∀ q ∈ t, hasKey (acc ++ [(f p.1, p.2)]) (f q.1) = false := by
        intro q hq
        rw [hasKey_append]
        have h1 : hasKey acc (f q.1) = false :=
          hfresh q (List.mem_cons_of_mem _ hq)
        have h2 : ¬(f q.1 = f p.1) := fun he =>
          hnd.1 (he ▸ List.mem_map_of_mem (fun r => f r.1) hq)
        rw [h1]
        unfold hasKey
        simp
        exact fun he => h2 he.symm
      rw [ih (acc ++ [(f p.1, p.2)]) hnd.2 hfr, List.map_cons,
        List.append_assoc]
      rfl

/-- When the keys are distinct and status and filter are not both
present, the renamed keys of torrents are still distinct. -/
theorem rename_keys_nodup (l : PyDict)
    (hnd : (l.map Prod.fst).Nodup)
    (hnb : ¬(hasKey l "status" = true ∧ hasKey l "filter" = true)) :
    (l.map (fun p => if p.1 == "status" then "filter" else p.1)).Nodup := by
  induction l with
  | nil => simp
  | cons p t ih =>
      rw [List.map_cons, List.nodup_cons] at hnd ⊢
      have hnbt : ¬(hasKey t "status" = true ∧ hasKey t "filter" = true) := by
        intro hc
        exact hnb ⟨hasKey_cons_tail p t _ hc.1, hasKey_cons_tail p t _ hc.2⟩
      refine ⟨?_, ih hnd.2 hnbt⟩
      intro hmem
      rw [List.mem_map] at hmem
      obtain ⟨q, hq, he⟩ := hmem
      by_cases hp : p.1 = "status"
      · rw [if_pos (show (p.1 == "status") = true by simp [hp])] at he
        by_cases hqs : q.1 = "status"
        · rw [if_pos (show (q.1 == "status") = true by simp [hqs])] at he
          exact hnd.1 (by
            rw [hp, ← hqs]
            exact List.mem_map_of_mem Prod.fst hq)
        · rw [if_neg (show ¬(q.1 == "status") = true by simp [hqs])] at he
          exact hnb ⟨hasKey_cons_head p t _ hp,
            hasKey_cons_tail p t _ (hasKey_of_mem t q _ hq he)⟩
      · rw [if_neg (show ¬(p.1 == "status") = true by simp [hp])] at he
        by_cases hqs : q.1 = "status"
        · rw [if_pos (show (q.1 == "status") = true by simp [hqs])] at he
          exact hnb ⟨hasKey_cons_tail p t _ (hasKey_of_mem t q _ hq hqs),
            hasKey_cons_head p t _ he.symm⟩
        · rw [if_neg (show ¬(q.1 == "status") = true by simp [hqs])] at he
          exact hnd.1 (by
            rw [← he]
            exact List.mem_map_of_mem Prod.fst hq)

/-- C4 evidence: remove_item posts to the very endpoint add_feed posts
to, the feed addition endpoint rss/addFeed, although its documentation
says it removes a feed or folder; there is no distinct removal
endpoint in its body. -/
theorem c4_remove_item_posts_to_addFeed :
    (Client.remove_item "myFolder").endpoint = "rss/addFeed"
    ∧ (Client.add_feed "http://feed.example/rss" "myFolder").endpoint
        = "rss/addFeed"
    ∧ (Client.remove_item "myFolder").endpoint
        = (Client.add_feed "http://feed.example/rss" "myFolder").endpoint :=
  ⟨rfl, rfl, rfl⟩

/-- Tail of a separated join: separator and element for each element. -/
def sepJoinTail (sep : String) : List String → String
  | [] => ""
  | x :: xs => sep ++ x ++ sepJoinTail sep xs

/-- Folding the join step from an accumulator appends the separated
tail. -/
theorem foldl_sep_append (sep : String) (t : List String) (acc : String) :
    t.foldl (fun a x => a ++ sep ++ x) acc = acc ++ sepJoinTail sep t := by
  induction t generalizing acc with
  | nil => simp [sepJoinTail]
  | cons x xs ih =>
      rw [List.foldl_cons, ih]
      simp [sepJoinTail, String.append_assoc]

/-- The hash string the claim describes: lowercased hashes joined by the
pipe character, empty for the empty list. -/
def hashesLowered : List String → String
  | [] => ""
  | [h] => h.toLower
  | h :: h2 :: t => h.toLower ++ "|" ++ hashesLowered (h2 :: t)

/-- The claimed join equals first element plus separated tail. -/
theorem hashesLowered_cons (h : String) (t : List String) :
    hashesLowered (h :: t)
      = h.toLower ++ sepJoinTail "|" (t.map String.toLower) := by
  induction t generalizing h with
  | nil => simp [hashesLowered, sepJoinTail]
  | cons h2 t2 ih => simp [hashesLowered, sepJoinTail, ih, String.append_assoc]

/-- C5: _process_infohash_list sends, under the key hashes, the
lowercased hashes joined by the pipe character for a list (the empty
string for the empty list), and the lowercased input for a single
string. -/
theorem c5_process_infohash_list (hs : List String) (h : String) :
    Client._process_infohash_list (InfohashInput.list hs)
      = [("hashes", PyVal.str (hashesLowered hs))]
    ∧ Client._process_infohash_list (InfohashInput.single h)
      = [("hashes", PyVal.str h.toLower)] := by
  refine ⟨?_, rfl⟩
  unfold Client._process_infohash_list
  cases hs with
  | nil => rfl
  | cons x xs =>
      simp [pyJoin, foldl_sep_append, hashesLowered_cons]

/-- The trace of _request: nothing when unauthenticated, otherwise the
one request selected by the method string. -/
theorem _request_fst (jsonLoads : String → Option JsonVal)
    (st : ClientState) (endpoint method : String) (data : Option PyDict)
    (kw : Kwargs) (resp : HttpResponse) :
    (Client._request jsonLoads st endpoint method data kw resp).1
      = if st.isAuthenticated = false then []
        else [if method == "get" then Dispatched.get (st.url ++ endpoint) kw
              else Dispatched.post (st.url ++ endpoint) data kw] := by
  simp only [Client._request]
  split
  · rfl
  · split <;> rfl

/-- C8: the url stored by __init__ ends with the api suffix whether or
not __init__ raises, every dispatched request URL is the stored url
concatenated with the endpoint, and neither login nor logout changes
the stored url. -/
theorem c8_url_api_suffix :
    (∀ url resp, pyEndswith ((Client.init url resp).1).url "/api/v2/" = true)
    ∧ (∀ jsonLoads st endpoint method data kw resp d,
        d ∈ (Client._request jsonLoads st endpoint method data kw resp).1 →
        d.url = st.url ++ endpoint)
    ∧ (∀ st resp, ((Client.login st resp).1).url = st.url)
    ∧ (∀ jsonLoads st resp, ((Client.logout jsonLoads st resp).1).url = st.url) := by
  refine ⟨?_, ?_, ?_, ?_⟩
  · intro url resp
    have hu : ((Client.init url resp).1).url = Client.initUrl url := by
      unfold Client.init
      split
      · rfl
      · split <;> rfl
    rw [hu]
    unfold Client.initUrl
    by_cases h : pyEndswith url "/api/v2/"
    · simp [h]
    · simp only [h, if_false, Bool.false_eq_true]
      unfold pyEndswith
      rw [String.data_append]
      exact List.isSuffixOf_iff_suffix.mpr (List.suffix_append _ _)
  · intro jsonLoads st endpoint method data kw resp d hd
    rw [_request_fst] at hd
    by_cases ha : st.isAuthenticated = false
    · simp [ha] at hd
    · simp [ha] at hd
      subst hd
      split <;> rfl
  · intro st resp
    unfold Client.login
    split <;> rfl
  · intro jsonLoads st resp
    simp only [Client.logout]
    split <;> rfl

/-- Witness for C8: a concrete init url gains the suffix and a concrete
dispatched GET has url equal to base plus endpoint. -/
theorem c8_url_api_suffix_witness :
    pyEndswith ((Client.init "http://h:8080" ⟨200, ""⟩).1).url "/api/v2/" = true
    ∧ (Dispatched.get "http://h/api/v2/app/version" noKw).url
        = "http://h/api/v2/" ++ "app/version" :=
  ⟨c8_url_api_suffix.1 "http://h:8080" ⟨200, ""⟩,
   c8_url_api_suffix.2.1 jsonLoadsExample ⟨"http://h/api/v2/", true⟩
     "app/version" "get" Option.none noKw ⟨200, ""⟩
     (Dispatched.get "http://h/api/v2/app/version" noKw) (by decide)⟩

/-- C9: set_file_priority raises ValueError for a priority outside
0, 1, 2, 7 and TypeError for a valid priority with a non int file id,
dispatching nothing in either case; the state is never touched, the
model passes it through untouched in runCall. -/
theorem c9_set_file_priority_validation
    (jsonLoads : String → Option JsonVal) (st : ClientState)
    (resp : HttpResponse) (infohash : String) (file_id : PyVal)
    (priority : Int) :
    (priority ∉ ([0, 1, 2, 7] : List Int) →
      runCall jsonLoads st (Client.set_file_priority infohash file_id priority) resp
        = ([], Except.error PyErr.valueError))
    ∧ (priority ∈ ([0, 1, 2, 7] : List Int) →
        file_id.isinstance_int = false →
      runCall jsonLoads st (Client.set_file_priority infohash file_id priority) resp
        = ([], Except.error PyErr.typeError)) := by
  constructor
  · intro hp
    unfold Client.set_file_priority
    simp [hp, runCall]
  · intro hp hf
    unfold Client.set_file_priority
    simp [hp, hf, runCall]

/-- Witness for C9: priority 5 raises ValueError, a string file id with
priority 1 raises TypeError, neither dispatches. -/
theorem c9_set_file_priority_validation_witness :
    runCall jsonLoadsExample ⟨"http://h/api/v2/", true⟩
        (Client.set_file_priority "ABCDEF" (PyVal.int 3) 5) ⟨200, ""⟩
      = ([], Except.error PyErr.valueError)
    ∧ runCall jsonLoadsExample ⟨"http://h/api/v2/", true⟩
        (Client.set_file_priority "ABCDEF" (PyVal.str "zero") 1) ⟨200, ""⟩
      = ([], Except.error PyErr.typeError) :=
  ⟨(c9_set_file_priority_validation jsonLoadsExample ⟨"http://h/api/v2/", true⟩
      ⟨200, ""⟩ "ABCDEF" (PyVal.int 3) 5).1 (by decide),
   (c9_set_file_priority_validation jsonLoadsExample ⟨"http://h/api/v2/", true⟩
      ⟨200, ""⟩ "ABCDEF" (PyVal.str "zero") 1).2 (by decide) rfl⟩

/-- C10: a GET dispatch never carries the data argument: the trace of an
authenticated GET does not depend on data, and get_item in particular
dispatches a GET on rss/items without its withData value. -/
theorem c10_get_drops_data
    (jsonLoads : String → Option JsonVal) (st : ClientState)
    (endpoint : String) (data : Option PyDict) (kw : Kwargs)
    (resp : HttpResponse) (w : Bool)
    (hauth : st.isAuthenticated = true) :
    (Client._request jsonLoads st endpoint "get" data kw resp).1
      = [Dispatched.get (st.url ++ endpoint) kw]
    ∧ (runCall jsonLoads st (Except.ok (Client.get_item w)) resp).1
      = [Dispatched.get (st.url ++ "rss/items") noKw] := by
  constructor
  · unfold Client._request
    simp [hauth]
    split <;> rfl
  · unfold runCall Client.get_item Client._request
    simp [hauth]
    split <;> rfl

/-- Witness for C10 at a concrete state, with withData true. -/
theorem c10_get_drops_data_witness :
    (runCall jsonLoadsExample ⟨"http://h/api/v2/", true⟩
        (Except.ok (Client.get_item true)) ⟨200, ""⟩).1
      = [Dispatched.get ("http://h/api/v2/" ++ "rss/items") noKw] :=
  (c10_get_drops_data jsonLoadsExample ⟨"http://h/api/v2/", true⟩
    "rss/items" (Option.some [("withData", PyVal.bool true)]) noKw
    ⟨200, ""⟩ true rfl).2

/-- C6 counterexample: passing both status and filter to torrents loses
one of the two values entirely (here the status value a is sent neither
under filter nor under status), and a urls keyword given to
download_from_link is overwritten by the link instead of being left
unchanged. -/
theorem c6_shim_counterexample :
    (dictGet (((Client.torrents
          [("status", PyVal.str "a"), ("filter", PyVal.str "b")]).kw.params).getD [])
        "filter" ≠ Option.some (PyVal.str "a")
      ∧ dictGet (((Client.torrents
          [("status", PyVal.str "a"), ("filter", PyVal.str "b")]).kw.params).getD [])
        "status" = Option.none)
    ∧ dictGet (((Client.download_from_link (PyLink.one "http://x")
          [("urls", PyVal.str "y")]).data).getD []) "urls"
        ≠ Option.some (PyVal.str "y") := by
  decide

/-- C6 amended: torrents sends every keyword unchanged with status
renamed to filter provided the keywords are distinct and do not include
both status and filter; download_from_link copies save_path to savepath
exactly when save_path is truthy and savepath is not, leaves every
keyword other than savepath and urls unchanged, and always sets urls to
the link. -/
theorem c6_shims_renaming
    (filters : PyDict) (link : PyLink) (kwargs : PyDict) (k : String)
    (hnd : (filters.map Prod.fst).Nodup)
    (hnb : ¬(hasKey filters "status" = true ∧ hasKey filters "filter" = true))
    (hk1 : k ≠ "savepath") (hk2 : k ≠ "urls") :
    (Client.torrents filters).kw.params
      = Option.some (filters.map
          (fun p => (if p.1 == "status" then "filter" else p.1, p.2)))
    ∧ dictGet (((Client.download_from_link link kwargs).data).getD []) k
        = dictGet kwargs k
    ∧ dictGet (((Client.download_from_link link kwargs).data).getD []) "savepath"
        = (if (PyVal.truthy ((dictGet kwargs "save_path").getD PyVal.none)
              && !PyVal.truthy ((dictGet kwargs "savepath").getD PyVal.none)) = true
           then dictGet kwargs "save_path" else dictGet kwargs "savepath")
    ∧ dictGet (((Client.download_from_link link kwargs).data).getD []) "urls"
        = Option.some (PyVal.str (Client.linkUrls link)) := by
  have hdl : (Client.download_from_link link kwargs).data
      = Option.some (dictSet
          (if (PyVal.truthy ((dictGet kwargs "save_path").getD PyVal.none)
              && !PyVal.truthy ((dictGet kwargs "savepath").getD PyVal.none)) = true
            then dictSet kwargs "savepath" ((dictGet kwargs "save_path").getD PyVal.none)
            else kwargs)
          "urls" (PyVal.str (Client.linkUrls link))) := rfl
  refine ⟨?_, ?_, ?_, ?_⟩
  · have h1 : (Client.torrents filters).kw.params
        = Option.some (filters.foldl
            (fun acc p =>
              dictSet acc (if p.1 == "status" then "filter" else p.1) p.2)
            []) := rfl
    rw [h1]
    exact congrArg Option.some
      (foldl_dictSet_map (fun s => if s == "status" then "filter" else s)
        filters [] (rename_keys_nodup filters hnd hnb) (fun p _ => rfl))
  · rw [hdl, Option.getD_some, dictGet_dictSet, if_neg hk2]
    by_cases hc : (PyVal.truthy ((dictGet kwargs "save_path").getD PyVal.none)
        && !PyVal.truthy ((dictGet kwargs "savepath").getD PyVal.none)) = true
    · rw [if_pos hc, dictGet_dictSet, if_neg hk1]
    · rw [if_neg hc]
  · rw [hdl, Option.getD_some, dictGet_dictSet,
      if_neg (show ¬("savepath" = "urls") by decide)]
    by_cases hc : (PyVal.truthy ((dictGet kwargs "save_path").getD PyVal.none)
        && !PyVal.truthy ((dictGet kwargs "savepath").getD PyVal.none)) = true
    · rw [if_pos hc, if_pos hc, dictGet_dictSet, if_pos rfl]
      cases hs : dictGet kwargs "save_path" with
      | none =>
          rw [hs] at hc
          simp [PyVal.truthy] at hc
      | some w => rfl
    · rw [if_neg hc, if_neg hc]
  · rw [hdl, Option.getD_some, dictGet_dictSet, if_pos rfl]

/-- Witness for C6 amended at concrete keyword dictionaries. -/
theorem c6_shims_renaming_witness :
    (Client.torrents
        [("status", PyVal.str "downloading"), ("limit", PyVal.int 10)]).kw.params
      = Option.some
          [("filter", PyVal.str "downloading"), ("limit", PyVal.int 10)]
    ∧ dictGet (((Client.download_from_link (PyLink.one "http://t.example/f.torrent")
          [("save_path", PyVal.str "/d"), ("category", PyVal.str "c")]).data).getD [])
        "category" = Option.some (PyVal.str "c")
    ∧ dictGet (((Client.download_from_link (PyLink.one "http://t.example/f.torrent")
          [("save_path", PyVal.str "/d"), ("category", PyVal.str "c")]).data).getD [])
        "urls" = Option.some (PyVal.str "http://t.example/f.torrent") :=
  ⟨(c6_shims_renaming
      [("status", PyVal.str "downloading"), ("limit", PyVal.int 10)]
      (PyLink.one "http://t.example/f.torrent")
      [("save_path", PyVal.str "/d"), ("category", PyVal.str "c")]
      "category" (by decide) (by decide) (by decide) (by decide)).1,
   (c6_shims_renaming
      [("status", PyVal.str "downloading"), ("limit", PyVal.int 10)]
      (PyLink.one "http://t.example/f.torrent")
      [("save_path", PyVal.str "/d"), ("category", PyVal.str "c")]
      "category" (by decide) (by decide) (by decide) (by decide)).2.1,
   (c6_shims_renaming
      [("status", PyVal.str "downloading"), ("limit", PyVal.int 10)]
      (PyLink.one "http://t.example/f.torrent")
      [("save_path", PyVal.str "/d"), ("category", PyVal.str "c")]
      "category" (by decide) (by decide) (by decide) (by decide)).2.2.2⟩

end QBit
